import Mathlib

/-!
Verification of `src/main.py` of the `llm-code-deployer` repository: a shallow
embedding of its data model and operations, and proofs of the behavioural
claims about it.  Strings are modelled by Lean `String`, Python `int` by `Int`,
byte strings by `List Nat`, and the effectful pipeline (`process_task` and its
helpers) by explicit state passing over a model of the GitHub hosting state
together with a trace of observable events.
-/

namespace LlmCodeDeployer

/-! ### List / string primitives used by the regex models -/

/-- `startsWithL pat s` : the character list `s` starts with `pat`. -/
def startsWithL : List Char → List Char → Bool
  | [], _ => true
  | _ :: _, [] => false
  | p :: ps, c :: cs => p == c && startsWithL ps cs

/-- `containsL pat s` : `pat` occurs as a contiguous sublist of `s`. -/
def containsL (pat : List Char) : List Char → Bool
  | [] => pat.isEmpty
  | c :: rest => startsWithL pat (c :: rest) || containsL pat rest

/-- The suffix of `s` following the first occurrence of `pat`, if any
(the semantics of a leading non-greedy `.*?` before a literal). -/
def afterFirstL (pat : List Char) : List Char → Option (List Char)
  | [] => if pat.isEmpty then some [] else none
  | c :: rest =>
    if startsWithL pat (c :: rest) then some ((c :: rest).drop pat.length)
    else afterFirstL pat rest

/-- The prefix of `s` before the first occurrence of `pat`, if any. -/
def beforeFirstL (pat : List Char) : List Char → Option (List Char)
  | [] => if pat.isEmpty then some [] else none
  | c :: rest =>
    if startsWithL pat (c :: rest) then some []
    else (beforeFirstL pat rest).map (c :: ·)

/-- `substrS pat s` : Python `pat in s` on strings. -/
def substrS (pat s : String) : Bool := containsL pat.toList s.toList

/-- Python `s.startswith(pat)`. -/
def startsWithS (pat s : String) : Bool := startsWithL pat.toList s.toList

/-- Python `s.endswith(pat)`. -/
def endsWithS (pat s : String) : Bool :=
  startsWithL pat.toList.reverse s.toList.reverse

/-! ### Association lists: the file map of a repository, the repository map
of the hosting account -/

/-- Lookup in an association list (repository file maps, repository maps). -/
def findVal {β : Type} : List (String × β) → String → Option β
  | [], _ => none
  | (k, v) :: rest, key => if k = key then some v else findVal rest key

/-- Replace the value stored at an existing key (GitHub `update_file`). -/
def setVal {β : Type} (m : List (String × β)) (key : String) (v : β) :
    List (String × β) :=
  m.map (fun p => if p.1 = key then (key, v) else p)

/-! ### `base64.b64decode` (default `validate=False`) and UTF-8 decoding -/

/-- Value of one base64 alphabet character. -/
def b64Val (c : Char) : Option Nat :=
  if 'A' ≤ c ∧ c ≤ 'Z' then some (c.toNat - 65)
  else if 'a' ≤ c ∧ c ≤ 'z' then some (c.toNat - 71)
  else if '0' ≤ c ∧ c ≤ '9' then some (c.toNat + 4)
  else if c = '+' then some 62
  else if c = '/' then some 63
  else none

/-- Decode base64 quads; padding (`=`) is accepted only in the final quad. -/
def decQuads : List Char → Option (List Nat)
  | [] => some []
  | a :: b :: c :: d :: rest =>
    match b64Val a, b64Val b with
    | some va, some vb =>
      if c = '=' ∧ d = '=' then
        if rest.isEmpty then some [va * 4 + vb / 16] else none
      else
        match b64Val c with
        | some vc =>
          if d = '=' then
            if rest.isEmpty then
              some [va * 4 + vb / 16, (vb % 16) * 16 + vc / 4]
            else none
          else
            match b64Val d, decQuads rest with
            | some vd, some bs =>
              some ([va * 4 + vb / 16, (vb % 16) * 16 + vc / 4,
                     (vc % 4) * 64 + vd] ++ bs)
            | _, _ => none
        | none => none
    | _, _ => none
  | _ => none

/-- Python `base64.b64decode` (non-validating): characters outside the
base64 alphabet and `=` are discarded, then the remainder is decoded in
quads; a length not divisible by four is a padding error.  This model is
exact on inputs whose padding, if any, closes the final quad; it is
stricter than CPython on a pad sequence followed by further data (CPython
stops there and returns the partial decode). -/
def b64decodeBytes (s : String) : Option (List Nat) :=
  let kept := s.toList.filter (fun c => (b64Val c).isSome || c = '=')
  if kept.length % 4 = 0 then decQuads kept else none

/-- Fuel-driven UTF-8 decoder (the fuel, at least the byte count, keeps the
recursion structural so that it also computes inside the kernel). -/
def utf8DecodeF : Nat → List Nat → Option (List Char)
  | _, [] => some []
  | 0, _ :: _ => none
  | fuel + 1, b :: rest =>
    if b < 0x80 then
      (utf8DecodeF fuel rest).map (Char.ofNat b :: ·)
    else if b < 0xC2 then none
    else if b < 0xE0 then
      match rest with
      | b2 :: rest2 =>
        if 0x80 ≤ b2 ∧ b2 < 0xC0 then
          (utf8DecodeF fuel rest2).map
            (Char.ofNat ((b - 0xC0) * 64 + (b2 - 0x80)) :: ·)
        else none
      | [] => none
    else if b < 0xF0 then
      match rest with
      | b2 :: b3 :: rest3 =>
        let lo2 := if b = 0xE0 then 0xA0 else 0x80
        let hi2 := if b = 0xED then 0xA0 else 0xC0
        if lo2 ≤ b2 ∧ b2 < hi2 ∧ 0x80 ≤ b3 ∧ b3 < 0xC0 then
          (utf8DecodeF fuel rest3).map
            (Char.ofNat ((b - 0xE0) * 4096 + (b2 - 0x80) * 64 + (b3 - 0x80)) :: ·)
        else none
      | _ => none
    else if b < 0xF5 then
      match rest with
      | b2 :: b3 :: b4 :: rest4 =>
        let lo2 := if b = 0xF0 then 0x90 else 0x80
        let hi2 := if b = 0xF4 then 0x90 else 0xC0
        if lo2 ≤ b2 ∧ b2 < hi2 ∧ 0x80 ≤ b3 ∧ b3 < 0xC0 ∧ 0x80 ≤ b4 ∧ b4 < 0xC0 then
          (utf8DecodeF fuel rest4).map
            (Char.ofNat ((b - 0xF0) * 262144 + (b2 - 0x80) * 4096 +
                         (b3 - 0x80) * 64 + (b4 - 0x80)) :: ·)
        else none
      | _ => none
    else none

/-- UTF-8 decoding of a byte list, rejecting overlong forms, surrogates and
values above `0x10FFFF` — the semantics of Python `bytes.decode("utf-8")`.
Each step consumes at least one byte, so the byte count is enough fuel. -/
def utf8Decode (bs : List Nat) : Option (List Char) :=
  utf8DecodeF bs.length bs

/-- Python `base64.b64decode(s).decode("utf-8")`, `none` when either the
base64 decoding or the UTF-8 decoding raises. -/
def b64ToText (s : String) : Option String :=
  (b64decodeBytes s).bind (fun bs => (utf8Decode bs).map String.mk)

/-! ### Data model (`Attachment`, `TaskRequest`) and the data-URL regexes -/

/-- Pydantic model `Attachment`: a name and a data URL. -/
structure Attachment where
  name : String
  url : String
deriving DecidableEq, Repr

/-- Pydantic model `TaskRequest` (Python `int` is modelled by `Int`,
`checks: list` by `List String`). -/
structure TaskRequest where
  email : String
  secret : String
  task : String
  round : Int
  nonce : String
  brief : String
  checks : List String
  evaluation_url : String
  attachments : List Attachment
deriving DecidableEq, Repr

/-- `get_repo_name`: the unique repository name derived from the task id. -/
def get_repo_name (task_id : String) : String :=
  "llm-code-deployer-" ++ task_id

/-- Scanner for the tail of `re.match(r"data:(.*?)(;base64)?,(.*)", url)`:
the leading non-greedy group stops at the first position where either
`;base64,` or `,` matches (the optional group is tried first). -/
def dataUrlScan : List Char → Option (List Char × Bool × List Char)
  | [] => none
  | c :: rest =>
    if startsWithL ";base64,".toList (c :: rest) then
      some ([], true, (c :: rest).drop 8)
    else if c = ',' then some ([], false, rest)
    else (dataUrlScan rest).map (fun x => (c :: x.1, x.2.1, x.2.2))

/-- `re.match(r"data:(.*?)(;base64)?,(.*)", url, re.DOTALL)`: the parsed
(media type, base64 tag present, payload) of a data URL, `none` when the
regex does not match. -/
def dataUrlMatch (url : String) : Option (String × Bool × String) :=
  if startsWithL "data:".toList url.toList then
    (dataUrlScan (url.toList.drop 5)).map
      (fun x => (String.mk x.1, x.2.1, String.mk x.2.2))
  else none

/-- `re.match(r"data:.*?base64,(.*)", url, re.DOTALL)` used by the commit
paths: the payload after the first `base64,` of a `data:` URL. -/
def commitPayload (url : String) : Option String :=
  if startsWithL "data:".toList url.toList then
    (afterFirstL "base64,".toList (url.toList.drop 5)).map String.mk
  else none

/-! ### `get_attachment_context` (the Attachment Interpreter) -/

/-- `get_attachment_context`: decodes attachments into (vision content
blocks carried as their full data URLs, concatenated text context).
Attachments whose URL does not match the data-URL regex, or whose encoding
tag is not base64, or whose payload fails base64/UTF-8 decoding, are
skipped; unsupported media types are ignored. -/
def get_attachment_context : List Attachment → List String × String
  | [] => ([], "")
  | att :: rest =>
    match dataUrlMatch att.url with
    | none => get_attachment_context rest
    | some (mime_type, is_base64, encoded_data) =>
      if ¬ is_base64 then get_attachment_context rest
      else
        let b64url := "data:" ++ mime_type ++ ";base64," ++ encoded_data
        if startsWithS "image/" mime_type then
          let r := get_attachment_context rest
          (b64url :: r.1,
           ("The user has provided an image named \x27" ++ att.name ++
            "\x27 for visual reference. You must follow instructions related to this image.")
             ++ r.2)
        else if startsWithS "text/" mime_type || endsWithS "/json" mime_type
                || endsWithS "/csv" mime_type then
          match b64ToText encoded_data with
          | none => get_attachment_context rest
          | some decoded_content =>
            let r := get_attachment_context rest
            (r.1,
             ("\n---\nFILE: " ++ att.name ++ " (" ++ mime_type ++ ")\n" ++
              "CONTENT:\n" ++ decoded_content ++ "\n---\n") ++ r.2)
        else get_attachment_context rest

/-- The commit-eligibility test of `process_task`: the URL contains one of
the substrings `text/csv`, `application/json`, `text/markdown` (Python
`any(mime in att.url for mime in [...])`). -/
def commitEligible1 (att : Attachment) : Bool :=
  substrS "text/csv" att.url || substrS "application/json" att.url ||
  substrS "text/markdown" att.url

/-- The commit-eligible subset derived in `process_task`. -/
def attachmentsToCommit (atts : List Attachment) : List Attachment :=
  atts.filter commitEligible1

/-! ### `generate_code_from_brief`: response parsing -/

/-- `re.search(r"```tag\n(.*?)\n```", content, re.DOTALL)`: the text between
the first occurrence of the opening fence and the first closing fence after
it. -/
def fenceSearch (tag content : String) : Option String :=
  match afterFirstL ("```" ++ tag ++ "\n").toList content.toList with
  | none => none
  | some rest =>
    match beforeFirstL "\n```".toList rest with
    | none => none
    | some body => some (String.mk body)

/-- `content` contains a fenced block labelled `tag` (the search above
succeeds). -/
def containsFence (tag content : String) : Bool := (fenceSearch tag content).isSome

/-- Python whitespace characters recognised by `str.strip()`. -/
def isPyWhitespace (c : Char) : Bool :=
  c = ' ' || c = '\t' || c = '\n' || c = '\r' || c = '\x0b' || c = '\x0c'

/-- Python `s.strip()`: remove leading and trailing whitespace.  The
whitespace set models the ASCII part of Python’s; the additional
characters `str.strip()` removes (`\x1c`..`\x1f`, `\x85`, Unicode spaces)
are omitted. -/
def stripS (s : String) : String :=
  String.mk (((s.toList.dropWhile isPyWhitespace).reverse.dropWhile
    isPyWhitespace).reverse)

/-- The result dictionary of `generate_code_from_brief`: `html`, `readme`
and, in round 1 only, `license`. -/
structure GenResult where
  html : String
  readme : String
  license : Option String
deriving DecidableEq, Repr

/-- The parsing half of `generate_code_from_brief` (the prompt construction
and the completion call are abstracted into the raw completion `content`
supplied by the environment).  Mirrors the source: the html and markdown
blocks are mandatory, and — when `existing_code` is falsy in the Python
sense, i.e. `None` or the empty string — the text (license) block is
mandatory as well; every extracted block is whitespace-trimmed; failure
raises (`none`). -/
def generate_code_from_brief (content : String) (existing_code : Option String) :
    Option GenResult :=
  match fenceSearch "html" content, fenceSearch "markdown" content with
  | some h, some r =>
    if existing_code = none ∨ existing_code = some "" then
      match fenceSearch "text" content with
      | some l => some ⟨stripS h, stripS r, some (stripS l)⟩
      | none => none
    else some ⟨stripS h, stripS r, none⟩
  | _, _ => none

/-! ### Model of the GitHub hosting state and the observable event trace -/

/-- The hosting account: its login and its repositories, each a map from
file path to (decoded) file content. -/
structure GitHubState where
  login : String
  repos : List (String × List (String × String))
deriving DecidableEq, Repr

/-- Whether a repository with the given name already exists. -/
def repoExists (st : GitHubState) (name : String) : Bool :=
  (findVal st.repos name).isSome

/-- Create a fresh repository holding the given files. -/
def addRepo (st : GitHubState) (name : String)
    (files : List (String × String)) : GitHubState :=
  { st with repos := st.repos ++ [(name, files)] }

/-- Overwrite the file map of an existing repository. -/
def putRepo (st : GitHubState) (name : String)
    (files : List (String × String)) : GitHubState :=
  { st with repos := setVal st.repos name files }

/-- Observable events of one orchestration run. -/
inductive Event where
  | getRepo (name : String)
  | createRepo (name : String)
  | fileRead (path : String)
  | fileWrite (path content : String)
  | llmCall
  | attempt (i : Nat)
  | sleep (n : Nat)
deriving DecidableEq, Repr

/-- The exceptions that can cross a component boundary in the pipeline.
`typeError` is the TypeError raised when the attachment-commit loops
subscript a pydantic `Attachment` model (`attachment["url"]`), which the
except handlers re-raise because their f-strings subscript it again. -/
inductive Err where
  | httpError (status : Nat)
  | githubError (status : Nat)
  | parseError
  | keyError
  | typeError
  | notifyFailed
deriving DecidableEq, Repr

/-- File writes recorded in a trace, in order. -/
def writes (evs : List Event) : List (String × String) :=
  evs.filterMap (fun e => match e with
    | .fileWrite p c => some (p, c)
    | _ => none)

/-- Paths written in a trace, in order. -/
def writtenPaths (evs : List Event) : List String :=
  (writes evs).map Prod.fst

/-- Paths read (GitHub `get_contents`) in a trace, in order. -/
def readPaths (evs : List Event) : List String :=
  evs.filterMap (fun e => match e with
    | .fileRead p => some p
    | _ => none)

/-- Delivery attempts (HTTP POSTs of the notifier) recorded in a trace. -/
def notifyAttempts (evs : List Event) : List Nat :=
  evs.filterMap (fun e => match e with
    | .attempt i => some i
    | _ => none)

/-! ### Repository Publisher -/

/-- The dictionary handed to the publishers: the generated files plus the
commit-eligible attachments (`generated_files` in `process_task`). -/
structure FilesDict where
  html : String
  readme : String
  license : Option String
  attachments_to_commit : List Attachment
deriving DecidableEq, Repr

/-- `RepositoryDeploymentResult` as returned by the publishers.  The commit
identifier is a Git hash read back from the branch head and is outside this
model; the two URLs are computed by string formatting. -/
structure DeployResult where
  repo_url : String
  pages_url : String
deriving DecidableEq, Repr

/-- The deterministic public-site URL formula
`https://USER.github.io/REPO/` shared by both publishers. -/
def pagesUrl (login repo_name : String) : String :=
  "https://" ++ login ++ ".github.io/" ++ repo_name ++ "/"

/-- The repository URL `repo.html_url`. -/
def repoHtmlUrl (login repo_name : String) : String :=
  "https://github.com/" ++ login ++ "/" ++ repo_name

/-- `create_and_deploy_repo` (round 1 publisher): create the repository
(a 422 from GitHub when it already exists becomes an HTTP 409 conflict)
and commit `index.html`, `README.md` and `LICENSE`.  The attachment-commit
loop then subscripts the first pydantic `Attachment` (`attachment["url"]`),
raising TypeError; the except handler re-raises (its f-string evaluates
`attachment[\x27name\x27]`), so with a non-empty commit-eligible list the
function aborts right after the three core commits and no attachment file
is ever written.  With an empty list it sleeps and returns the deployment
result. -/
def create_and_deploy_repo (st : GitHubState) (repo_name : String)
    (files : FilesDict) : GitHubState × List Event × Except Err DeployResult :=
  if repoExists st repo_name then
    (st, [], .error (.httpError 409))
  else
    let evs0 := [Event.createRepo repo_name,
                 Event.fileWrite "index.html" files.html,
                 Event.fileWrite "README.md" files.readme]
    let rf0 := [("index.html", files.html), ("README.md", files.readme)]
    match files.license with
    | none =>
      -- `files["license"]` raises KeyError after the first two commits
      (addRepo st repo_name rf0, evs0, .error .keyError)
    | some lic =>
      let rf1 := rf0 ++ [("LICENSE", lic)]
      let evs1 := evs0 ++ [Event.fileWrite "LICENSE" lic]
      match files.attachments_to_commit with
      | [] =>
        (addRepo st repo_name rf1, evs1 ++ [Event.sleep 5],
         .ok ⟨repoHtmlUrl st.login repo_name, pagesUrl st.login repo_name⟩)
      | _ :: _ =>
        -- `attachment["url"]` on a pydantic model: TypeError, re-raised
        -- by the handler, propagates out of the publisher
        (addRepo st repo_name rf1, evs1, .error .typeError)

/-- Apply the staged single-file commits (`update_file`) in order. -/
def applyStaged (rfiles : List (String × String)) :
    List (String × String) → List (String × String) × List Event
  | [] => (rfiles, [])
  | (p, c) :: rest =>
    let r := applyStaged (setVal rfiles p c) rest
    (r.1, Event.fileWrite p c :: r.2)

/-- `update_and_redeploy_repo` (round 2 publisher): locate the existing
repository (404 if absent), fetch and stage `index.html` and `README.md`
(HTTP 500 if either is missing).  The attachment loop then subscripts the
first pydantic `Attachment` (`attachment["url"]`), raising TypeError which
the except handler re-raises, so with a non-empty commit-eligible list the
function aborts before the staged-commit loop and writes nothing.  With an
empty list it applies the two staged single-file commits, sleeps, and
returns the deployment result. -/
def update_and_redeploy_repo (st : GitHubState) (repo_name : String)
    (files : FilesDict) : GitHubState × List Event × Except Err DeployResult :=
  match findVal st.repos repo_name with
  | none => (st, [Event.getRepo repo_name], .error (.httpError 404))
  | some rfiles =>
    let evs0 := [Event.getRepo repo_name, Event.fileRead "index.html"]
    if (findVal rfiles "index.html").isNone then
      (st, evs0, .error (.httpError 500))
    else
      let evs1 := evs0 ++ [Event.fileRead "README.md"]
      if (findVal rfiles "README.md").isNone then
        (st, evs1, .error (.httpError 500))
      else
        match files.attachments_to_commit with
        | [] =>
          let staged0 := [("index.html", files.html), ("README.md", files.readme)]
          let r2 := applyStaged rfiles staged0
          (putRepo st repo_name r2.1,
           evs1 ++ r2.2 ++ [Event.sleep 5],
           .ok ⟨repoHtmlUrl st.login repo_name, pagesUrl st.login repo_name⟩)
        | _ :: _ =>
          -- `attachment["url"]` on a pydantic model: TypeError, re-raised
          -- by the handler, aborts before the `update_file` loop
          (st, evs1, .error .typeError)

/-! ### Notifier -/

/-- One environment of the notifier: the outcome of attempt `i` is
`some status` for an HTTP response and `none` for a transport-level
exception. -/
def NotifyOutcomes := Nat → Option Nat

/-- The retry loop of `notify_evaluation_server`, starting at attempt `i`
with `n` attempts remaining: POST; stop on status 200; otherwise sleep
`2 ^ i` seconds and retry.  Returns the trace and whether a success status
was reached. -/
def notifyFrom (outcomes : NotifyOutcomes) (i : Nat) : Nat → List Event × Bool
  | 0 => ([], false)
  | n + 1 =>
    if outcomes i = some 200 then ([Event.attempt i], true)
    else
      let r := notifyFrom outcomes (i + 1) n
      (Event.attempt i :: Event.sleep (2 ^ i) :: r.1, r.2)

/-- `notify_evaluation_server`: up to 4 attempts with exponential backoff;
after 4 failures the function raises. -/
def notify_evaluation_server (outcomes : NotifyOutcomes) : List Event × Bool :=
  notifyFrom outcomes 0 4

/-! ### Task Orchestrator (`process_task`) and HTTP endpoint -/

/-- The environment of one background run: the hosting state, the raw
completion text the model returns, and the outcomes of the notification
POSTs. -/
structure Env where
  github : GitHubState
  llmOutput : String
  notifyOutcomes : NotifyOutcomes

/-- The observable outcome of one `process_task` run: the final hosting
state, the event trace, and the exception caught by the top-level handler
(if any). -/
structure RunOutcome where
  github : GitHubState
  events : List Event
  error : Option Err

/-- `process_task`: the background workflow for either round.  Interprets
attachments, derives the commit-eligible subset, for round 2 fetches the
existing `index.html` (any failure there aborts the run), requests and
parses the completion, publishes via create (round 1) or update
(otherwise), and notifies the evaluation server.  Every exception is
caught at the top level and recorded. -/
def process_task (env : Env) (req : TaskRequest) : RunOutcome :=
  let repo_name := get_repo_name req.task
  let _ctx := get_attachment_context req.attachments
  let atc := attachmentsToCommit req.attachments
  -- round-2 prefetch of the prior artifact
  let prefetch : List Event × Except Err (Option String) :=
    if req.round = 2 then
      match findVal env.github.repos repo_name with
      | none => ([Event.getRepo repo_name], .error (.githubError 404))
      | some rfiles =>
        match findVal rfiles "index.html" with
        | none => ([Event.getRepo repo_name, Event.fileRead "index.html"],
                   .error (.githubError 404))
        | some code => ([Event.getRepo repo_name, Event.fileRead "index.html"],
                        .ok (some code))
    else ([], .ok none)
  match prefetch with
  | (evs, .error e) => ⟨env.github, evs, some e⟩
  | (evs0, .ok existing_code) =>
    let evs1 := evs0 ++ [Event.llmCall]
    match generate_code_from_brief env.llmOutput existing_code with
    | none => ⟨env.github, evs1, some .parseError⟩
    | some g =>
      let files : FilesDict := ⟨g.html, g.readme, g.license, atc⟩
      let dep :=
        if req.round = 1 then create_and_deploy_repo env.github repo_name files
        else update_and_redeploy_repo env.github repo_name files
      match dep with
      | (st, evs2, .error e) => ⟨st, evs1 ++ evs2, some e⟩
      | (st, evs2, .ok _res) =>
        let n := notify_evaluation_server env.notifyOutcomes
        ⟨st, evs1 ++ evs2 ++ n.1, if n.2 then none else some .notifyFailed⟩

/-- The synchronous result of the `/api/deploy` endpoint: either an
`HTTPException` with a status, or acceptance with the task scheduled for
background processing. -/
inductive HandleResult where
  | rejected (status : Nat)
  | accepted (task : TaskRequest)
deriving DecidableEq, Repr

/-- The background tasks scheduled by the endpoint. -/
def scheduledTasks : HandleResult → List TaskRequest
  | .rejected _ => []
  | .accepted t => [t]

/-- `handle_deployment` (`POST /api/deploy`): reject with 403 on a secret
mismatch, schedule the background task and return success when the round
is 1 or 2, otherwise reject with 400. -/
def handle_deployment (mySecret : String) (req : TaskRequest) : HandleResult :=
  if req.secret ≠ mySecret then .rejected 403
  else if req.round = 1 ∨ req.round = 2 then .accepted req
  else .rejected 400

/-! ### Auxiliary lemmas -/

theorem findVal_cons {β : Type} (a : String) (b : β) (rest : List (String × β))
    (key : String) :
    findVal ((a, b) :: rest) key = if a = key then some b else findVal rest key := rfl

theorem setVal_cons {β : Type} (a : String) (b : β) (rest : List (String × β))
    (key : String) (v : β) :
    setVal ((a, b) :: rest) key v =
      (if a = key then (key, v) else (a, b)) :: setVal rest key v := rfl

theorem findVal_setVal_ne {β : Type} (m : List (String × β)) (key k : String)
    (v : β) (h : k ≠ key) : findVal (setVal m key v) k = findVal m k := by
  induction m with
  | nil => rfl
  | cons p rest ih =>
    obtain ⟨a, b⟩ := p
    rw [setVal_cons]
    by_cases hp : a = key
    · subst hp
      rw [if_pos rfl, findVal_cons, findVal_cons,
        if_neg (fun hh => h hh.symm), if_neg (fun hh => h hh.symm), ih]
    · rw [if_neg hp, findVal_cons, findVal_cons, ih]

theorem findVal_setVal_eq {β : Type} (m : List (String × β)) (key : String)
    (v : β) (h : (findVal m key).isSome) :
    findVal (setVal m key v) key = some v := by
  induction m with
  | nil => simp [findVal] at h
  | cons p rest ih =>
    obtain ⟨a, b⟩ := p
    rw [setVal_cons]
    by_cases hp : a = key
    · subst hp
      rw [if_pos rfl, findVal_cons, if_pos rfl]
    · rw [findVal_cons, if_neg hp] at h
      rw [if_neg hp, findVal_cons, if_neg hp, ih h]

theorem mem_of_startsWithL (pat s : List Char)
    (h : startsWithL pat s = true) : ∀ x ∈ pat, x ∈ s := by
  induction pat generalizing s with
  | nil => simp
  | cons p ps ih =>
    match s with
    | [] => simp [startsWithL] at h
    | c :: cs =>
      simp [startsWithL] at h
      intro x hx
      rcases List.mem_cons.mp hx with hx | hx
      · simp [hx, h.1]
      · exact List.mem_cons_of_mem _ (ih cs h.2 x hx)

theorem mem_of_afterFirstL (pat s r : List Char)
    (h : afterFirstL pat s = some r) : ∀ x ∈ pat, x ∈ s := by
  induction s with
  | nil =>
    intro x hx
    simp [afterFirstL] at h
    rcases h with ⟨h1, _⟩
    simp [h1] at hx
  | cons c cs ih =>
    intro x hx
    by_cases hs : startsWithL pat (c :: cs) = true
    · exact mem_of_startsWithL pat (c :: cs) hs x hx
    · simp [afterFirstL, hs] at h
      exact List.mem_cons_of_mem _ (ih h x hx)

theorem dataUrlScan_isSome_of_mem_comma (s : List Char)
    (h : ',' ∈ s) : (dataUrlScan s).isSome := by
  induction s with
  | nil => simp at h
  | cons c cs ih =>
    by_cases hsw : startsWithL [';', 'b', 'a', 's', 'e', '6', '4', ','] (c :: cs) = true
    · simp [dataUrlScan, hsw]
    · by_cases hc : c = ','
      · subst hc
        simp [dataUrlScan, hsw]
      · have hcs : ',' ∈ cs := by
          rcases List.mem_cons.mp h with h1 | h1
          · exact absurd h1.symm hc
          · exact h1
        simp [dataUrlScan, hsw, hc, Option.isSome_map']
        exact ih hcs

theorem commitPayload_none_of_dataUrlMatch_none (url : String)
    (h : dataUrlMatch url = none) : commitPayload url = none := by
  unfold commitPayload
  by_cases hd : startsWithL "data:".toList url.toList = true
  · rw [if_pos hd]
    unfold dataUrlMatch at h
    rw [if_pos hd] at h
    have hscan : dataUrlScan (url.toList.drop 5) = none := by
      rcases hs : dataUrlScan (url.toList.drop 5) with _ | x
      · rfl
      · rw [hs] at h
        simp at h
    rcases hc : afterFirstL "base64,".toList (url.toList.drop 5) with _ | r
    · rfl
    · exfalso
      have hcm : ',' ∈ url.toList.drop 5 :=
        mem_of_afterFirstL _ _ _ hc ',' (by decide)
      have := dataUrlScan_isSome_of_mem_comma _ hcm
      rw [hscan] at this
      simp at this
  · rw [if_neg hd]

theorem startsWithL_append_self (pat t : List Char) :
    startsWithL pat (pat ++ t) = true := by
  induction pat with
  | nil => rfl
  | cons p ps ih => simp [startsWithL, ih]

theorem containsL_cons (pat : List Char) (c : Char) (s : List Char) :
    containsL pat (c :: s) = (startsWithL pat (c :: s) || containsL pat s) := by
  rcases s with _ | ⟨d, rest⟩ <;> rfl

theorem containsL_cons_of (pat : List Char) (c : Char) (s : List Char)
    (h : containsL pat s = true) : containsL pat (c :: s) = true := by
  rw [containsL_cons, h, Bool.or_true]

theorem containsL_append_left (pat pre s : List Char)
    (h : containsL pat s = true) : containsL pat (pre ++ s) = true := by
  induction pre with
  | nil => simpa using h
  | cons c cs ih => exact containsL_cons_of _ _ _ ih

theorem containsL_of_startsWithL (pat s : List Char)
    (h : startsWithL pat s = true) : containsL pat s = true := by
  rcases s with _ | ⟨c, rest⟩
  · rcases pat with _ | _
    · rfl
    · simp [startsWithL] at h
  · simp [containsL, h]

theorem startsWithL_decomp (pat s : List Char) (h : startsWithL pat s = true) :
    s = pat ++ s.drop pat.length := by
  induction pat generalizing s with
  | nil => simp
  | cons p ps ih =>
    rcases s with _ | ⟨c, rest⟩
    · simp [startsWithL] at h
    · simp [startsWithL] at h
      simpa [h.1] using ih rest h.2

theorem dataUrlScan_decomp (cs : List Char) (m : List Char) (b : Bool)
    (d : List Char) (h : dataUrlScan cs = some (m, b, d)) :
    cs = m ++ (if b then ";base64,".toList else [',']) ++ d := by
  induction cs generalizing m b d with
  | nil => simp [dataUrlScan] at h
  | cons c rest ih =>
    by_cases hsw : startsWithL [';', 'b', 'a', 's', 'e', '6', '4', ','] (c :: rest) = true
    · simp [dataUrlScan, hsw] at h
      obtain ⟨hm, hb, hd⟩ := h
      subst hm hb hd
      simpa using startsWithL_decomp _ _ hsw
    · by_cases hc : c = ','
      · subst hc
        simp [dataUrlScan, hsw] at h
        obtain ⟨hm, hb, hd⟩ := h
        subst hm hd
        simp [hb]
      · have hstep : dataUrlScan (c :: rest) =
            (dataUrlScan rest).map (fun x => (c :: x.1, x.2.1, x.2.2)) := by
          simp [dataUrlScan, hsw, hc]
        rw [hstep] at h
        rcases hscan : dataUrlScan rest with _ | ⟨m2, b2, d2⟩
        · rw [hscan] at h
          simp at h
        · rw [hscan] at h
          simp at h
          obtain ⟨hm, hb, hd⟩ := h
          subst hb hd
          rw [← hm]
          simpa using congrArg (c :: ·) (ih _ _ _ hscan)

/-- The declared media type of a well-formed data URL occurs as a substring
of the URL. -/
theorem substr_mime_of_dataUrlMatch (url m : String) (b : Bool) (d : String)
    (h : dataUrlMatch url = some (m, b, d)) : substrS m url = true := by
  unfold dataUrlMatch at h
  by_cases hd : startsWithL "data:".toList url.toList = true
  · rw [if_pos hd] at h
    rcases hs : dataUrlScan (url.toList.drop 5) with _ | ⟨mc, bc, dc⟩
    · rw [hs] at h
      simp at h
    · rw [hs] at h
      simp at h
      obtain ⟨hm, hb, hdd⟩ := h
      have hdec := dataUrlScan_decomp _ _ _ _ hs
      have hurl : url.toList = "data:".toList ++ url.toList.drop 5 := by
        simpa using startsWithL_decomp _ _ hd
      have hml : m.toList = mc := by
        rw [← hm]
        rfl
      unfold substrS
      rw [hml, hurl, hdec]
      apply containsL_append_left
      apply containsL_of_startsWithL
      rw [List.append_assoc]
      exact startsWithL_append_self _ _
  · rw [if_neg hd] at h
    exact absurd h (by simp)

/-- Processing one attachment contributes its own blocks and text in front
of the contribution of the rest of the list. -/
theorem get_attachment_context_cons (x : Attachment) (l : List Attachment) :
    get_attachment_context (x :: l) =
      ((get_attachment_context [x]).1 ++ (get_attachment_context l).1,
       (get_attachment_context [x]).2 ++ (get_attachment_context l).2) := by
  rcases hm : dataUrlMatch x.url with _ | ⟨mime, b64, data⟩
  · simp [get_attachment_context, hm]
  · by_cases hb : b64 = true
    · subst hb
      by_cases him : startsWithS "image/" mime = true
      · simp [get_attachment_context, hm, him]
      · by_cases htxt : (startsWithS "text/" mime || endsWithS "/json" mime
            || endsWithS "/csv" mime) = true
        · rcases hdec : b64ToText data with _ | content
          · simp [get_attachment_context, hm, him, htxt, hdec]
          · simp [get_attachment_context, hm, him, htxt, hdec]
        · simp [get_attachment_context, hm, him, htxt]
    · have hb2 : b64 = false := by
        rcases b64 with _ | _
        · rfl
        · exact absurd rfl hb
      subst hb2
      simp [get_attachment_context, hm]

/-- The notifier trace holds only attempt and sleep events. -/
theorem notifyFrom_no_fileWrite (outcomes : NotifyOutcomes) (i n : Nat)
    (p c : String) : Event.fileWrite p c ∉ (notifyFrom outcomes i n).1 := by
  induction n generalizing i with
  | zero => simp [notifyFrom]
  | succ k ih =>
    by_cases h : outcomes i = some 200
    · simp [notifyFrom, h]
    · simp [notifyFrom, h]
      exact ih (i + 1)

/-- The staged-commit loop writes exactly the staged pairs. -/
theorem writes_applyStaged (rf : List (String × String))
    (staged : List (String × String)) (p c : String)
    (h : Event.fileWrite p c ∈ (applyStaged rf staged).2) : (p, c) ∈ staged := by
  induction staged generalizing rf with
  | nil => simp [applyStaged] at h
  | cons pc rest ih =>
    obtain ⟨q, d⟩ := pc
    simp only [applyStaged, List.mem_cons] at h
    rcases h with h | h
    · simp at h
      simp [h.1, h.2]
    · exact List.mem_cons_of_mem _ (ih _ h)

/-! ### Claim theorems -/

/-- C1: the notifier makes at most 4 delivery attempts; it terminates
immediately and successfully on the first response with the success status
(200); every failed attempt `i` (non-success status or transport-level
exception) is followed by a sleep of `2 ^ i` seconds (1, 2, 4, 8); after
4 failed attempts the notifier raises, with no further retry. -/
theorem claim_C1 (outcomes : NotifyOutcomes) :
    (notifyAttempts (notify_evaluation_server outcomes).1).length ≤ 4 ∧
    ((notify_evaluation_server outcomes).2 = true ↔
      (outcomes 0 = some 200 ∨ outcomes 1 = some 200 ∨
       outcomes 2 = some 200 ∨ outcomes 3 = some 200)) ∧
    (outcomes 0 = some 200 →
      (notify_evaluation_server outcomes).1 = [Event.attempt 0]) ∧
    (outcomes 0 ≠ some 200 → outcomes 1 = some 200 →
      (notify_evaluation_server outcomes).1 =
        [Event.attempt 0, Event.sleep 1, Event.attempt 1]) ∧
    (outcomes 0 ≠ some 200 → outcomes 1 ≠ some 200 → outcomes 2 = some 200 →
      (notify_evaluation_server outcomes).1 =
        [Event.attempt 0, Event.sleep 1, Event.attempt 1, Event.sleep 2,
         Event.attempt 2]) ∧
    (outcomes 0 ≠ some 200 → outcomes 1 ≠ some 200 → outcomes 2 ≠ some 200 →
      outcomes 3 = some 200 →
      (notify_evaluation_server outcomes).1 =
        [Event.attempt 0, Event.sleep 1, Event.attempt 1, Event.sleep 2,
         Event.attempt 2, Event.sleep 4, Event.attempt 3]) ∧
    (outcomes 0 ≠ some 200 → outcomes 1 ≠ some 200 → outcomes 2 ≠ some 200 →
      outcomes 3 ≠ some 200 →
      (notify_evaluation_server outcomes).1 =
        [Event.attempt 0, Event.sleep 1, Event.attempt 1, Event.sleep 2,
         Event.attempt 2, Event.sleep 4, Event.attempt 3, Event.sleep 8] ∧
      (notify_evaluation_server outcomes).2 = false) := by
  by_cases h0 : outcomes 0 = some 200 <;>
  by_cases h1 : outcomes 1 = some 200 <;>
  by_cases h2 : outcomes 2 = some 200 <;>
  by_cases h3 : outcomes 3 = some 200 <;>
  simp_all [notify_evaluation_server, notifyFrom, notifyAttempts]

/-- Witness for C1: with failures at attempts 0 and 1 and a success status
at attempt 2, the notifier performs exactly the attempts 0, 1, 2 with
sleeps of 1 and 2 seconds between them. -/
theorem claim_C1_witness :
    (notify_evaluation_server (fun i => if i = 2 then some 200 else some 500)).1 =
      [Event.attempt 0, Event.sleep 1, Event.attempt 1, Event.sleep 2,
       Event.attempt 2] :=
  (claim_C1 (fun i => if i = 2 then some 200 else some 500)).2.2.2.2.1
    (by decide) (by decide) (by decide)

/-- C8: a request whose secret differs from the configured one is rejected
synchronously with HTTP 403 and no background task is scheduled; a request
with the right secret but a round outside 1 and 2 is rejected with HTTP 400
and no background task; a request passing both checks schedules exactly its
background run and is accepted. -/
theorem claim_C8 (mySecret : String) (req : TaskRequest) :
    (req.secret ≠ mySecret →
      handle_deployment mySecret req = .rejected 403 ∧
      scheduledTasks (handle_deployment mySecret req) = []) ∧
    (req.secret = mySecret → req.round ≠ 1 → req.round ≠ 2 →
      handle_deployment mySecret req = .rejected 400 ∧
      scheduledTasks (handle_deployment mySecret req) = []) ∧
    (req.secret = mySecret → (req.round = 1 ∨ req.round = 2) →
      handle_deployment mySecret req = .accepted req ∧
      scheduledTasks (handle_deployment mySecret req) = [req]) := by
  refine ⟨?_, ?_, ?_⟩
  · intro hs
    simp [handle_deployment, hs, scheduledTasks]
  · intro hs h1 h2
    simp [handle_deployment, hs, h1, h2, scheduledTasks]
  · intro hs hr
    rcases hr with hr | hr <;> simp [handle_deployment, hs, hr, scheduledTasks]

/-- Witness for C8 at three concrete requests: a wrong secret, a wrong
round, and a valid request. -/
theorem claim_C8_witness :
    handle_deployment "s3cr3t" ⟨"e", "wrong", "t", 1, "n", "b", [], "u", []⟩ =
      .rejected 403 ∧
    handle_deployment "s3cr3t" ⟨"e", "s3cr3t", "t", 7, "n", "b", [], "u", []⟩ =
      .rejected 400 ∧
    handle_deployment "s3cr3t" ⟨"e", "s3cr3t", "t", 2, "n", "b", [], "u", []⟩ =
      .accepted ⟨"e", "s3cr3t", "t", 2, "n", "b", [], "u", []⟩ :=
  ⟨((claim_C8 "s3cr3t" ⟨"e", "wrong", "t", 1, "n", "b", [], "u", []⟩).1
      (by decide)).1,
   ((claim_C8 "s3cr3t" ⟨"e", "s3cr3t", "t", 7, "n", "b", [], "u", []⟩).2.1
      rfl (by decide) (by decide)).1,
   ((claim_C8 "s3cr3t" ⟨"e", "s3cr3t", "t", 2, "n", "b", [], "u", []⟩).2.2
      rfl (Or.inr rfl)).1⟩

/-- C10: the shared-secret check precedes the round-validity check — a
request with a wrong secret and an invalid round is rejected with 403
(never 400), and no background task is scheduled. -/
theorem claim_C10 (mySecret : String) (req : TaskRequest)
    (hs : req.secret ≠ mySecret) (h1 : req.round ≠ 1) (h2 : req.round ≠ 2) :
    handle_deployment mySecret req = .rejected 403 ∧
    handle_deployment mySecret req ≠ .rejected 400 ∧
    scheduledTasks (handle_deployment mySecret req) = [] := by
  simp [handle_deployment, hs, scheduledTasks]

/-- Witness for C10 at a concrete request with a wrong secret and round 9. -/
theorem claim_C10_witness :
    handle_deployment "s3cr3t" ⟨"e", "wrong", "t", 9, "n", "b", [], "u", []⟩ =
      .rejected 403 ∧
    handle_deployment "s3cr3t" ⟨"e", "wrong", "t", 9, "n", "b", [], "u", []⟩ ≠
      .rejected 400 ∧
    scheduledTasks
      (handle_deployment "s3cr3t" ⟨"e", "wrong", "t", 9, "n", "b", [], "u", []⟩) = [] :=
  claim_C10 "s3cr3t" ⟨"e", "wrong", "t", 9, "n", "b", [], "u", []⟩
    (by decide) (by decide) (by decide)

/-- C9: whenever either publisher succeeds, the public site URL of the
deployment result is computed by the fixed formula
`https://LOGIN.github.io/REPO/` from the account login and the repository
name, for the create and the update variant alike. -/
theorem claim_C9 (st : GitHubState) (repo_name : String) (files : FilesDict) :
    (∀ st2 evs res,
      create_and_deploy_repo st repo_name files = (st2, evs, .ok res) →
      res.pages_url = "https://" ++ st.login ++ ".github.io/" ++ repo_name ++ "/") ∧
    (∀ st2 evs res,
      update_and_redeploy_repo st repo_name files = (st2, evs, .ok res) →
      res.pages_url = "https://" ++ st.login ++ ".github.io/" ++ repo_name ++ "/") := by
  constructor
  · intro st2 evs res h
    unfold create_and_deploy_repo at h
    by_cases hex : repoExists st repo_name = true
    · simp [hex] at h
    · rcases hlic : files.license with _ | lic
      · simp [hex, hlic] at h
      · rcases hatc : files.attachments_to_commit with _ | ⟨a0, arest⟩
        · simp [hex, hlic, hatc] at h
          rw [← h.2.2]
          rfl
        · simp [hex, hlic, hatc] at h
  · intro st2 evs res h
    unfold update_and_redeploy_repo at h
    rcases hrepo : findVal st.repos repo_name with _ | rfiles
    · rw [hrepo] at h
      simp at h
    · rw [hrepo] at h
      by_cases hih : (findVal rfiles "index.html").isNone = true
      · simp [hih] at h
      · by_cases hrm : (findVal rfiles "README.md").isNone = true
        · simp [hih, hrm] at h
        · rcases hatc : files.attachments_to_commit with _ | ⟨a0, arest⟩
          · simp [hih, hrm, hatc] at h
            rw [← h.2.2]
            rfl
          · simp [hih, hrm, hatc] at h

/-- Witness for C9: a concrete successful create and a concrete successful
update both return the formula-derived pages URL. -/
theorem claim_C9_witness :
    (DeployResult.mk "https://github.com/mohdsamad83/llm-code-deployer-w9"
        "https://mohdsamad83.github.io/llm-code-deployer-w9/").pages_url =
      "https://" ++ "mohdsamad83" ++ ".github.io/" ++ "llm-code-deployer-w9" ++ "/" ∧
    (DeployResult.mk "https://github.com/mohdsamad83/llm-code-deployer-w9"
        "https://mohdsamad83.github.io/llm-code-deployer-w9/").pages_url =
      "https://" ++ "mohdsamad83" ++ ".github.io/" ++ "llm-code-deployer-w9" ++ "/" :=
  ⟨(claim_C9 ⟨"mohdsamad83", []⟩ "llm-code-deployer-w9" ⟨"h", "r", some "l", []⟩).1
      ⟨"mohdsamad83", [("llm-code-deployer-w9",
        [("index.html", "h"), ("README.md", "r"), ("LICENSE", "l")])]⟩
      [Event.createRepo "llm-code-deployer-w9", Event.fileWrite "index.html" "h",
       Event.fileWrite "README.md" "r", Event.fileWrite "LICENSE" "l", Event.sleep 5]
      (DeployResult.mk "https://github.com/mohdsamad83/llm-code-deployer-w9"
        "https://mohdsamad83.github.io/llm-code-deployer-w9/")
      rfl,
   (claim_C9 ⟨"mohdsamad83", [("llm-code-deployer-w9",
        [("index.html", "h0"), ("README.md", "r0")])]⟩
      "llm-code-deployer-w9" ⟨"h", "r", none, []⟩).2
      ⟨"mohdsamad83", [("llm-code-deployer-w9",
        [("index.html", "h"), ("README.md", "r")])]⟩
      [Event.getRepo "llm-code-deployer-w9", Event.fileRead "index.html",
       Event.fileRead "README.md", Event.fileWrite "index.html" "h",
       Event.fileWrite "README.md" "r", Event.sleep 5]
      (DeployResult.mk "https://github.com/mohdsamad83/llm-code-deployer-w9"
        "https://mohdsamad83.github.io/llm-code-deployer-w9/")
      rfl⟩

/-- C2 counterexample: a completion containing the html and markdown fenced
blocks but no text block fails to parse when the supplied prior artifact is
the empty string — although a prior artifact was supplied (round 2), the
parser requires the license block, contradicting the claim. -/
theorem claim_C2_counterexample :
    containsFence "html" "```html\nA\n```\n```markdown\nB\n```" = true ∧
    containsFence "markdown" "```html\nA\n```\n```markdown\nB\n```" = true ∧
    generate_code_from_brief "```html\nA\n```\n```markdown\nB\n```" (some "") =
      none :=
  ⟨rfl, rfl, rfl⟩

/-- C2 as amended: with no prior artifact (round 1) parsing succeeds iff
the html, markdown and text fenced blocks are all present, and on success
returns exactly the whitespace-trimmed blocks; with a NON-EMPTY prior
artifact supplied (round 2) parsing succeeds iff the html and markdown
blocks are present, ignores any text block and returns no license entry; a
supplied prior artifact that is the empty string is treated like round 1.
No partial result is returned on failure. -/
theorem claim_C2_amended (content ec : String) (hec : ec ≠ "") :
    ((generate_code_from_brief content none).isSome ↔
      containsFence "html" content = true ∧ containsFence "markdown" content = true ∧
      containsFence "text" content = true) ∧
    (∀ g, generate_code_from_brief content none = some g →
      ∃ h r l, fenceSearch "html" content = some h ∧
        fenceSearch "markdown" content = some r ∧
        fenceSearch "text" content = some l ∧
        g = ⟨stripS h, stripS r, some (stripS l)⟩) ∧
    ((generate_code_from_brief content (some ec)).isSome ↔
      containsFence "html" content = true ∧ containsFence "markdown" content = true) ∧
    (∀ g, generate_code_from_brief content (some ec) = some g →
      g.license = none ∧
      ∃ h r, fenceSearch "html" content = some h ∧
        fenceSearch "markdown" content = some r ∧
        g = ⟨stripS h, stripS r, none⟩) := by
  rcases hh : fenceSearch "html" content with _ | h <;>
  rcases hr : fenceSearch "markdown" content with _ | r <;>
  rcases ht : fenceSearch "text" content with _ | l <;>
  simp [generate_code_from_brief, containsFence, hh, hr, ht, hec]

/-- Witness for C2 as amended: a concrete completion with all three blocks
parses in both modes, with and without the license entry. -/
theorem claim_C2_witness :
    (generate_code_from_brief
      "```html\nA\n```\n```markdown\nB\n```\n```text\nC\n```" none).isSome ↔
      containsFence "html" "```html\nA\n```\n```markdown\nB\n```\n```text\nC\n```" = true ∧
      containsFence "markdown" "```html\nA\n```\n```markdown\nB\n```\n```text\nC\n```" = true ∧
      containsFence "text" "```html\nA\n```\n```markdown\nB\n```\n```text\nC\n```" = true :=
  (claim_C2_amended "```html\nA\n```\n```markdown\nB\n```\n```text\nC\n```" "old"
    (by decide)).1

/-- C3: a round-1 run whose derived repository name already exists writes
no file to any repository, sends no notification, and leaves the hosting
state unchanged; when the completion parses, the run fails exactly at
repository creation with an HTTP 409 conflict, its whole trace being the
single completion request. -/
theorem claim_C3 (env : Env) (req : TaskRequest)
    (hr : req.round = 1)
    (hex : repoExists env.github (get_repo_name req.task) = true) :
    writes (process_task env req).events = [] ∧
    notifyAttempts (process_task env req).events = [] ∧
    (process_task env req).github = env.github ∧
    ((generate_code_from_brief env.llmOutput none).isSome →
      (process_task env req).error = some (.httpError 409) ∧
      (process_task env req).events = [Event.llmCall]) := by
  have h12 : req.round ≠ 2 := by
    rw [hr]
    decide
  rcases hg : generate_code_from_brief env.llmOutput none with _ | g <;>
    simp [process_task, hr, h12, hg, create_and_deploy_repo, hex, writes,
      notifyAttempts]

/-- Witness for C3 at a concrete round-1 request against an existing
repository and a parseable completion. -/
theorem claim_C3_witness :
    writes (process_task
      ⟨⟨"mohdsamad83", [("llm-code-deployer-t3", [])]⟩,
       "```html\nA\n```\n```markdown\nB\n```\n```text\nC\n```",
       fun _ => some 200⟩
      ⟨"e", "s", "t3", 1, "n", "b", [], "u", []⟩).events = [] ∧
    notifyAttempts (process_task
      ⟨⟨"mohdsamad83", [("llm-code-deployer-t3", [])]⟩,
       "```html\nA\n```\n```markdown\nB\n```\n```text\nC\n```",
       fun _ => some 200⟩
      ⟨"e", "s", "t3", 1, "n", "b", [], "u", []⟩).events = [] ∧
    (process_task
      ⟨⟨"mohdsamad83", [("llm-code-deployer-t3", [])]⟩,
       "```html\nA\n```\n```markdown\nB\n```\n```text\nC\n```",
       fun _ => some 200⟩
      ⟨"e", "s", "t3", 1, "n", "b", [], "u", []⟩).error =
        some (.httpError 409) := by
  have h := claim_C3
    ⟨⟨"mohdsamad83", [("llm-code-deployer-t3", [])]⟩,
     "```html\nA\n```\n```markdown\nB\n```\n```text\nC\n```",
     fun _ => some 200⟩
    ⟨"e", "s", "t3", 1, "n", "b", [], "u", []⟩ rfl (by decide)
  exact ⟨h.1, h.2.1, (h.2.2.2 (by decide)).1⟩

/-- C4: a round-2 run whose derived repository does not exist aborts
immediately after the repository-existence check — its whole trace is that
single lookup, so no completion request, no file write and no notification
ever happens, and the hosting state is unchanged. -/
theorem claim_C4 (env : Env) (req : TaskRequest)
    (hr : req.round = 2)
    (hex : repoExists env.github (get_repo_name req.task) = false) :
    (process_task env req).events = [Event.getRepo (get_repo_name req.task)] ∧
    Event.llmCall ∉ (process_task env req).events ∧
    writes (process_task env req).events = [] ∧
    notifyAttempts (process_task env req).events = [] ∧
    (process_task env req).github = env.github ∧
    (process_task env req).error = some (.githubError 404) := by
  have hnone : findVal env.github.repos (get_repo_name req.task) = none := by
    rcases hf : findVal env.github.repos (get_repo_name req.task) with _ | x
    · rfl
    · rw [repoExists, hf] at hex
      simp at hex
  simp [process_task, hr, hnone, writes, notifyAttempts]

/-- Witness for C4 at a concrete round-2 request against an empty hosting
account. -/
theorem claim_C4_witness :
    (process_task ⟨⟨"mohdsamad83", []⟩, "x", fun _ => some 200⟩
      ⟨"e", "s", "t4", 2, "n", "b", [], "u", []⟩).events =
        [Event.getRepo (get_repo_name "t4")] ∧
    Event.llmCall ∉ (process_task ⟨⟨"mohdsamad83", []⟩, "x", fun _ => some 200⟩
      ⟨"e", "s", "t4", 2, "n", "b", [], "u", []⟩).events ∧
    (process_task ⟨⟨"mohdsamad83", []⟩, "x", fun _ => some 200⟩
      ⟨"e", "s", "t4", 2, "n", "b", [], "u", []⟩).error =
        some (.githubError 404) := by
  have h := claim_C4 ⟨⟨"mohdsamad83", []⟩, "x", fun _ => some 200⟩
    ⟨"e", "s", "t4", 2, "n", "b", [], "u", []⟩ rfl (by decide)
  exact ⟨h.1, h.2.1, h.2.2.2.2.2⟩

/-- The notifier trace holds no file-read event. -/
theorem notifyFrom_no_fileRead (outcomes : NotifyOutcomes) (i n : Nat)
    (p : String) : Event.fileRead p ∉ (notifyFrom outcomes i n).1 := by
  induction n generalizing i with
  | zero => simp [notifyFrom]
  | succ k ih =>
    by_cases h : outcomes i = some 200
    · simp [notifyFrom, h]
    · simp [notifyFrom, h]
      exact ih (i + 1)

/-- The notifier trace contributes no file write. -/
theorem writes_notifyFrom (outcomes : NotifyOutcomes) (i n : Nat) :
    writes (notifyFrom outcomes i n).1 = [] := by
  induction n generalizing i with
  | zero => simp [notifyFrom, writes]
  | succ k ih =>
    by_cases h : outcomes i = some 200
    · simp [notifyFrom, h, writes]
    · have h2 := ih (i + 1)
      simp [writes] at h2
      simp [notifyFrom, h, writes]
      exact h2

/-- The notifier trace contributes no file read path. -/
theorem readPaths_notifyFrom (outcomes : NotifyOutcomes) (i n : Nat) :
    readPaths (notifyFrom outcomes i n).1 = [] := by
  induction n generalizing i with
  | zero => simp [notifyFrom, readPaths]
  | succ k ih =>
    by_cases h : outcomes i = some 200
    · simp [notifyFrom, h, readPaths]
    · have h2 := ih (i + 1)
      simp [readPaths] at h2
      simp [notifyFrom, h, readPaths]
      exact h2

/-- `readPaths` distributes over trace concatenation. -/
theorem readPaths_append (l1 l2 : List Event) :
    readPaths (l1 ++ l2) = readPaths l1 ++ readPaths l2 := by
  simp [readPaths]

/-- `writes` distributes over trace concatenation. -/
theorem writes_append (l1 l2 : List Event) :
    writes (l1 ++ l2) = writes l1 ++ writes l2 := by
  simp [writes]

/-- Every file written by the round-1 publisher is one of the three core
files — the attachment loop raises before any attachment write. -/
theorem writes_create_scope (st : GitHubState) (rn : String) (files : FilesDict)
    (p c : String)
    (h : Event.fileWrite p c ∈ (create_and_deploy_repo st rn files).2.1) :
    p = "index.html" ∨ p = "README.md" ∨ p = "LICENSE" := by
  unfold create_and_deploy_repo at h
  by_cases hex : repoExists st rn = true
  · simp [hex] at h
  · rcases hlic : files.license with _ | lic
    · simp [hex, hlic] at h
      rcases h with h | h
      · exact Or.inl h.1
      · exact Or.inr (Or.inl h.1)
    · rcases hatc : files.attachments_to_commit with _ | ⟨a0, arest⟩
      · simp [hex, hlic, hatc] at h
        rcases h with h | h | h
        · exact Or.inl h.1
        · exact Or.inr (Or.inl h.1)
        · exact Or.inr (Or.inr h.1)
      · simp [hex, hlic, hatc] at h
        rcases h with h | h | h
        · exact Or.inl h.1
        · exact Or.inr (Or.inl h.1)
        · exact Or.inr (Or.inr h.1)

/-- Every file written by the round-2 publisher is one of the two staged
core files — with a non-empty commit-eligible list it writes nothing. -/
theorem writes_update_scope (st : GitHubState) (rn : String) (files : FilesDict)
    (p c : String)
    (h : Event.fileWrite p c ∈ (update_and_redeploy_repo st rn files).2.1) :
    p = "index.html" ∨ p = "README.md" := by
  unfold update_and_redeploy_repo at h
  rcases hrepo : findVal st.repos rn with _ | rfiles
  · rw [hrepo] at h
    simp at h
  · rw [hrepo] at h
    by_cases hih : (findVal rfiles "index.html").isNone = true
    · simp [hih] at h
    · by_cases hrm : (findVal rfiles "README.md").isNone = true
      · simp [hih, hrm] at h
      · rcases hatc : files.attachments_to_commit with _ | ⟨a0, arest⟩
        · simp [hih, hrm, hatc, applyStaged] at h
          rcases h with h | h
          · exact Or.inl h.1
          · exact Or.inr h.1
        · simp [hih, hrm, hatc] at h

/-- Every file written during a `process_task` run is one of the three core
artifact files: no attachment file is ever committed, because both
publishers raise on the first commit-eligible attachment. -/
theorem writes_process_task_scope (env : Env) (req : TaskRequest) (p c : String)
    (h : Event.fileWrite p c ∈ (process_task env req).events) :
    p = "index.html" ∨ p = "README.md" ∨ p = "LICENSE" := by
  unfold process_task at h
  by_cases hr2 : req.round = 2
  · rcases hrepo : findVal env.github.repos (get_repo_name req.task) with _ | rfiles
    · simp [hr2, hrepo] at h
    · rcases hih : findVal rfiles "index.html" with _ | code
      · simp [hr2, hrepo, hih] at h
      · rcases hg : generate_code_from_brief env.llmOutput (some code) with _ | g
        · simp [hr2, hrepo, hih, hg] at h
        · have hr1 : req.round ≠ 1 := by
            rw [hr2]
            decide
          rcases hdep : update_and_redeploy_repo env.github (get_repo_name req.task)
              ⟨g.html, g.readme, g.license, attachmentsToCommit req.attachments⟩
            with ⟨st2, evs2, res⟩
          rcases res with e | r
          · simp [hr2, hrepo, hih, hg, hr1, hdep] at h
            rcases writes_update_scope _ _ _ _ _ (by rw [hdep]; exact h) with h2 | h2
            · exact Or.inl h2
            · exact Or.inr (Or.inl h2)
          · simp [hr2, hrepo, hih, hg, hr1, hdep] at h
            rcases h with h | h
            · rcases writes_update_scope _ _ _ _ _ (by rw [hdep]; exact h) with h2 | h2
              · exact Or.inl h2
              · exact Or.inr (Or.inl h2)
            · exact absurd h (notifyFrom_no_fileWrite _ _ _ _ _)
  · rcases hg : generate_code_from_brief env.llmOutput none with _ | g
    · simp [hr2, hg] at h
    · by_cases hr1 : req.round = 1
      · rcases hdep : create_and_deploy_repo env.github (get_repo_name req.task)
            ⟨g.html, g.readme, g.license, attachmentsToCommit req.attachments⟩
          with ⟨st2, evs2, res⟩
        rcases res with e | r
        · simp [hr2, hg, hr1, hdep] at h
          exact writes_create_scope _ _ _ _ _ (by rw [hdep]; exact h)
        · simp [hr2, hg, hr1, hdep] at h
          rcases h with h | h
          · exact writes_create_scope _ _ _ _ _ (by rw [hdep]; exact h)
          · exact absurd h (notifyFrom_no_fileWrite _ _ _ _ _)
      · rcases hdep : update_and_redeploy_repo env.github (get_repo_name req.task)
            ⟨g.html, g.readme, g.license, attachmentsToCommit req.attachments⟩
          with ⟨st2, evs2, res⟩
        rcases res with e | r
        · simp [hr2, hg, hr1, hdep] at h
          rcases writes_update_scope _ _ _ _ _ (by rw [hdep]; exact h) with h2 | h2
          · exact Or.inl h2
          · exact Or.inr (Or.inl h2)
        · simp [hr2, hg, hr1, hdep] at h
          rcases h with h | h
          · rcases writes_update_scope _ _ _ _ _ (by rw [hdep]; exact h) with h2 | h2
            · exact Or.inl h2
            · exact Or.inr (Or.inl h2)
          · exact absurd h (notifyFrom_no_fileWrite _ _ _ _ _)

/-- C5: in every round-2 run the LICENSE file is never read and never
written; a successful round-2 run exists only against an existing
repository with the markup artifact present and an empty commit-eligible
attachment set (the attachment loop raises otherwise), and it overwrites
exactly `index.html` and `README.md` with the newly generated content,
leaving the stored LICENSE content unchanged. -/
theorem claim_C5 (env : Env) (req : TaskRequest) (hr : req.round = 2) :
    "LICENSE" ∉ readPaths (process_task env req).events ∧
    "LICENSE" ∉ writtenPaths (process_task env req).events ∧
    ((process_task env req).error = none →
      ∃ rf oldH g,
        findVal env.github.repos (get_repo_name req.task) = some rf ∧
        findVal rf "index.html" = some oldH ∧
        generate_code_from_brief env.llmOutput (some oldH) = some g ∧
        attachmentsToCommit req.attachments = [] ∧
        writes (process_task env req).events =
          [("index.html", g.html), ("README.md", g.readme)] ∧
        (∀ oldL, findVal rf "LICENSE" = some oldL →
          ∃ rf2,
            findVal (process_task env req).github.repos (get_repo_name req.task) =
              some rf2 ∧ findVal rf2 "LICENSE" = some oldL)) := by
  rcases hrepo : findVal env.github.repos (get_repo_name req.task) with _ | rf
  · have hout : process_task env req =
        ⟨env.github, [Event.getRepo (get_repo_name req.task)],
         some (.githubError 404)⟩ := by
      simp [process_task, hr, hrepo]
    rw [hout]
    exact ⟨by simp [readPaths], by simp [writtenPaths, writes], by simp⟩
  · rcases hih : findVal rf "index.html" with _ | oldH
    · have hout : process_task env req =
          ⟨env.github,
           [Event.getRepo (get_repo_name req.task), Event.fileRead "index.html"],
           some (.githubError 404)⟩ := by
        simp [process_task, hr, hrepo, hih]
      rw [hout]
      exact ⟨by simp [readPaths], by simp [writtenPaths, writes], by simp⟩
    · rcases hg : generate_code_from_brief env.llmOutput (some oldH) with _ | g
      · have hout : process_task env req =
            ⟨env.github,
             [Event.getRepo (get_repo_name req.task), Event.fileRead "index.html",
              Event.llmCall],
             some .parseError⟩ := by
          simp [process_task, hr, hrepo, hih, hg]
        rw [hout]
        exact ⟨by simp [readPaths], by simp [writtenPaths, writes], by simp⟩
      · have h21 : req.round ≠ 1 := by
          rw [hr]
          decide
        by_cases hrm : (findVal rf "README.md").isNone = true
        · have hout : process_task env req =
              ⟨env.github,
               [Event.getRepo (get_repo_name req.task), Event.fileRead "index.html",
                Event.llmCall, Event.getRepo (get_repo_name req.task),
                Event.fileRead "index.html", Event.fileRead "README.md"],
               some (.httpError 500)⟩ := by
            simp [process_task, hr, h21, hrepo, hih, hg,
              update_and_redeploy_repo, hrm]
          rw [hout]
          exact ⟨by simp [readPaths], by simp [writtenPaths, writes], by simp⟩
        · rcases hatc : attachmentsToCommit req.attachments with _ | ⟨a0, arest⟩
          · rcases hn : notifyFrom env.notifyOutcomes 0 4 with ⟨nevs, ok⟩
            have hwn : writes nevs = [] := by
              have h2 := writes_notifyFrom env.notifyOutcomes 0 4
              rw [hn] at h2
              exact h2
            have hrn : readPaths nevs = [] := by
              have h2 := readPaths_notifyFrom env.notifyOutcomes 0 4
              rw [hn] at h2
              exact h2
            have hout : process_task env req =
                ⟨putRepo env.github (get_repo_name req.task)
                  (setVal (setVal rf "index.html" g.html) "README.md" g.readme),
                 [Event.getRepo (get_repo_name req.task), Event.fileRead "index.html",
                  Event.llmCall, Event.getRepo (get_repo_name req.task),
                  Event.fileRead "index.html", Event.fileRead "README.md",
                  Event.fileWrite "index.html" g.html,
                  Event.fileWrite "README.md" g.readme, Event.sleep 5] ++ nevs,
                 if ok then none else some .notifyFailed⟩ := by
              simp [process_task, hr, h21, hrepo, hih, hg,
                update_and_redeploy_repo, hrm, hatc, applyStaged,
                notify_evaluation_server, hn]
            rw [hout]
            refine ⟨?_, ?_, ?_⟩
            · rw [readPaths_append, hrn]
              simp [readPaths]
            · unfold writtenPaths
              rw [writes_append, hwn]
              simp [writes]
            · intro hok
              refine ⟨rf, oldH, g, rfl, hih, hg, rfl, ?_, ?_⟩
              · rw [writes_append, hwn]
                simp [writes]
              · intro oldL hlic
                refine ⟨setVal (setVal rf "index.html" g.html) "README.md" g.readme,
                  ?_, ?_⟩
                · simp [putRepo]
                  exact findVal_setVal_eq _ _ _ (by rw [hrepo]; rfl)
                · rw [findVal_setVal_ne _ _ _ _ (by decide),
                    findVal_setVal_ne _ _ _ _ (by decide), hlic]
          · have hout : process_task env req =
                ⟨env.github,
                 [Event.getRepo (get_repo_name req.task), Event.fileRead "index.html",
                  Event.llmCall, Event.getRepo (get_repo_name req.task),
                  Event.fileRead "index.html", Event.fileRead "README.md"],
                 some .typeError⟩ := by
              simp [process_task, hr, h21, hrepo, hih, hg,
                update_and_redeploy_repo, hrm, hatc]
            rw [hout]
            exact ⟨by simp [readPaths], by simp [writtenPaths, writes], by simp⟩

/-- Concrete round-2 environment for the C5 and C7 witnesses: a repository
with a full round-1 artifact, a parseable completion, no attachments. -/
def envW5 : Env :=
  ⟨⟨"mohdsamad83",
    [("llm-code-deployer-t5",
      [("index.html", "old"), ("README.md", "oldr"), ("LICENSE", "MIT")])]⟩,
   "```html\nA\n```\n```markdown\nB\n```",
   fun _ => some 200⟩

/-- Concrete attachment-free round-2 request for the witnesses. -/
def reqW5 : TaskRequest :=
  ⟨"e", "s", "t5", 2, "n", "b", [], "u", []⟩

/-- Witness for C5 at a concrete successful attachment-free round-2 run. -/
theorem claim_C5_witness :
    "LICENSE" ∉ readPaths (process_task envW5 reqW5).events ∧
    "LICENSE" ∉ writtenPaths (process_task envW5 reqW5).events ∧
    writes (process_task envW5 reqW5).events =
      [("index.html", "A"), ("README.md", "B")] := by
  have h := claim_C5 envW5 reqW5 rfl
  refine ⟨h.1, h.2.1, ?_⟩
  obtain ⟨rf, oldH, g, h1, h2, h3, _h4, h5, _h6⟩ := h.2.2 rfl
  rw [show findVal envW5.github.repos (get_repo_name reqW5.task) =
      some [("index.html", "old"), ("README.md", "oldr"), ("LICENSE", "MIT")]
    from rfl] at h1
  rw [← Option.some.inj h1] at h2
  rw [show findVal [("index.html", "old"), ("README.md", "oldr"),
      ("LICENSE", "MIT")] "index.html" = some "old" from rfl] at h2
  rw [← Option.some.inj h2] at h3
  rw [show generate_code_from_brief envW5.llmOutput (some "old") =
      some ⟨"A", "B", none⟩ from rfl] at h3
  rw [← Option.some.inj h3] at h5
  exact h5

/-- The C6 counterexample attachment: its URL is not a data URL at all (no
`data:` prefix), yet the substring test makes it commit-eligible. -/
def attC6 : Attachment := ⟨"bad.csv", "text/csv"⟩

/-- Round-1 environment for the C6 counterexample. -/
def envC6 : Env :=
  ⟨⟨"mohdsamad83", []⟩,
   "```html\nA\n```\n```markdown\nB\n```\n```text\nC\n```",
   fun _ => some 200⟩

/-- Round-1 request carrying the C6 counterexample attachment. -/
def reqC6 : TaskRequest :=
  ⟨"e", "s", "t1", 1, "n", "b", [], "http://cb", [attC6]⟩

/-- C6 counterexample: an attachment whose data URL fails to parse
contributes no vision block and no text context, but it DOES cause the run
to fail — its URL passes the substring-based commit-eligibility test, so
the publisher raises TypeError in the attachment loop and the round-1 run
aborts. -/
theorem claim_C6_counterexample :
    dataUrlMatch attC6.url = none ∧
    get_attachment_context [attC6] = ([], "") ∧
    (process_task envC6 reqC6).error = some .typeError ∧
    (process_task envC6 reqC6).error ≠ none :=
  ⟨rfl, rfl, rfl, by decide⟩

/-- C6 as amended: an attachment whose data URL fails to parse, or whose
encoding tag is not base64, contributes no vision block and no text
context, and never fails the attachment-interpretation step (the remaining
attachments are processed unchanged); no attachment file is ever committed
to the repository, so every such attachment is trivially excluded from the
committed files; and when such an attachment is not commit-eligible under
the substring test, the run proceeds exactly as if it were absent — but a
commit-eligible one makes the publisher raise and the run fail (see the
counterexample). -/
theorem claim_C6_amended :
    (∀ (a : Attachment) (pre post : List Attachment),
      (dataUrlMatch a.url = none ∨ ∃ m d, dataUrlMatch a.url = some (m, false, d)) →
      get_attachment_context (pre ++ a :: post) =
        get_attachment_context (pre ++ post)) ∧
    (∀ (env : Env) (req : TaskRequest) (p c : String),
      Event.fileWrite p c ∈ (process_task env req).events →
      p = "index.html" ∨ p = "README.md" ∨ p = "LICENSE") ∧
    (∀ (env : Env) (e s t : String) (r : Int) (n b u : String)
       (ch : List String) (pre post : List Attachment) (a : Attachment),
      (dataUrlMatch a.url = none ∨ ∃ m d, dataUrlMatch a.url = some (m, false, d)) →
      commitEligible1 a = false →
      process_task env ⟨e, s, t, r, n, b, ch, u, pre ++ a :: post⟩ =
        process_task env ⟨e, s, t, r, n, b, ch, u, pre ++ post⟩) := by
  refine ⟨?_, ?_, ?_⟩
  · intro a pre post hskip
    have hone : get_attachment_context [a] = ([], "") := by
      rcases hskip with hm | ⟨m, d, hm⟩
      · simp [get_attachment_context, hm]
      · simp [get_attachment_context, hm]
    induction pre with
    | nil =>
      rw [List.nil_append, List.nil_append, get_attachment_context_cons, hone]
      simp
    | cons x xs ih =>
      rw [List.cons_append, List.cons_append, get_attachment_context_cons,
        get_attachment_context_cons x (xs ++ post), ih]
  · exact writes_process_task_scope
  · intro env e s t r n b u ch pre post a _hskip hne
    have hatc : attachmentsToCommit (pre ++ a :: post) =
        attachmentsToCommit (pre ++ post) := by
      simp [attachmentsToCommit, List.filter_append, List.filter_cons, hne]
    unfold process_task
    dsimp only
    rw [hatc]

/-- Witness for C6 as amended at concrete unparseable attachments. -/
theorem claim_C6_amended_witness :
    get_attachment_context
      [⟨"bad.csv", "text/csv"⟩, ⟨"img", "data:image/png;base64,AA=="⟩] =
      get_attachment_context [⟨"img", "data:image/png;base64,AA=="⟩] ∧
    ("index.html" = "index.html" ∨ "index.html" = "README.md" ∨
      "index.html" = "LICENSE") ∧
    process_task envC6 ⟨"e", "s", "t1", 1, "n", "b", [], "http://cb",
        [⟨"bad", "nota-url"⟩]⟩ =
      process_task envC6 ⟨"e", "s", "t1", 1, "n", "b", [], "http://cb", []⟩ :=
  ⟨claim_C6_amended.1 ⟨"bad.csv", "text/csv"⟩ []
      [⟨"img", "data:image/png;base64,AA=="⟩] (Or.inl rfl),
   claim_C6_amended.2.1 envW5 reqW5 "index.html" "A" (by decide),
   claim_C6_amended.2.2 envC6 "e" "s" "t1" 1 "n" "b" "http://cb" [] [] []
      ⟨"bad", "nota-url"⟩ (Or.inl rfl) rfl⟩

/-- The C7 counterexample attachment: declared media type `image/png`, but
the base64 payload section happens to contain the substring `text/csv`. -/
def attC7 : Attachment := ⟨"pic.png", "data:image/png;base64,text/csv"⟩

/-- C7 counterexample: the commit-eligible subset is computed by a
substring test on the whole URL, not from the declared media type — an
attachment whose declared media type is `image/png` lands in the subset
because its payload contains `text/csv`. -/
theorem claim_C7_counterexample :
    dataUrlMatch attC7.url = some ("image/png", true, "text/csv") ∧
    attachmentsToCommit [attC7] = [attC7] :=
  ⟨rfl, rfl⟩

/-- C7 as amended: the commit-eligible subset contains every attachment
whose declared media type is CSV, JSON or Markdown, but membership is
decided by a substring test on the full URL, so attachments of other
declared media types (including `image/*`) can also belong to it; only the
three core artifact files are ever written into a repository — so no
attachment is ever committed, and in particular an attachment with an
`image/*` media type is never committed, only referenced inside the prompt
through its vision content block. -/
theorem claim_C7_amended :
    (∀ (atts : List Attachment) (a : Attachment) (m : String) (b : Bool) (d : String),
      a ∈ atts → dataUrlMatch a.url = some (m, b, d) →
      (m = "text/csv" ∨ m = "application/json" ∨ m = "text/markdown") →
      a ∈ attachmentsToCommit atts) ∧
    (∀ (env : Env) (req : TaskRequest) (p c : String),
      Event.fileWrite p c ∈ (process_task env req).events →
      p = "index.html" ∨ p = "README.md" ∨ p = "LICENSE") ∧
    (∀ (a : Attachment) (m data : String) (l : List Attachment),
      dataUrlMatch a.url = some (m, true, data) → startsWithS "image/" m = true →
      ("data:" ++ m ++ ";base64," ++ data) ∈
        (get_attachment_context (a :: l)).1) := by
  refine ⟨?_, ?_, ?_⟩
  · intro atts a m b d ha hmatch hm
    have hsub := substr_mime_of_dataUrlMatch _ _ _ _ hmatch
    unfold attachmentsToCommit
    rw [List.mem_filter]
    refine ⟨ha, ?_⟩
    unfold commitEligible1
    rcases hm with rfl | rfl | rfl <;> simp [hsub]
  · exact writes_process_task_scope
  · intro a m data l hmatch him
    simp [get_attachment_context, hmatch, him]

/-- Witness for C7 as amended: a declared CSV attachment is in the subset,
a concrete run writes only core files, and a concrete image attachment is
referenced in the prompt blocks. -/
theorem claim_C7_amended_witness :
    (⟨"d.csv", "data:text/csv;base64,QQ=="⟩ : Attachment) ∈
      attachmentsToCommit [⟨"d.csv", "data:text/csv;base64,QQ=="⟩] ∧
    ("index.html" = "index.html" ∨ "index.html" = "README.md" ∨
      "index.html" = "LICENSE") ∧
    ("data:" ++ "image/png" ++ ";base64," ++ "AA==") ∈
      (get_attachment_context [⟨"img", "data:image/png;base64,AA=="⟩]).1 :=
  ⟨claim_C7_amended.1 [⟨"d.csv", "data:text/csv;base64,QQ=="⟩]
      ⟨"d.csv", "data:text/csv;base64,QQ=="⟩ "text/csv" true "QQ=="
      (by decide) rfl (Or.inl rfl),
   claim_C7_amended.2.1 envW5 reqW5 "index.html" "A" (by decide),
   claim_C7_amended.2.2 ⟨"img", "data:image/png;base64,AA=="⟩ "image/png"
      "AA==" [] rfl rfl⟩

end LlmCodeDeployer
